import Mathlib

/-!
Verification development for the Hyperset Pages Service
(src/Pages-Service/main.py), a FastAPI process that discovers page
bundles on disk, serves them, and hot-reloads a registry on
filesystem events.

The Python module's state and operations are shallowly embedded:

* the module-level dict `_registry : { page_name : { "has_backend" : bool } }`
  is an association list `List (String × Bool)` with Python-dict
  update semantics (`dictInsert` overwrites in place, `dictPop`
  mirrors `dict.pop(name, None)`);
* `sys.modules` entries created by `_load_page` are an association
  list `List (String × Nat)` where the `Nat` is a module-instance
  identity: `importlib.util.module_from_spec` creates a brand-new
  module object on every call, modelled by a monotone counter;
* `app.include_router(router, ...)` appends to a mount table that is
  never removed from (FastAPI has no dynamic route removal);
* the outcome of executing `backend.py` — raise, load without a
  `router` attribute, or load exposing `router` — is a deterministic
  attribute of the on-disk bundle (`BackendOutcome`), which is what
  the `try`/`except` in `_load_page` branches on.
-/

/-- Python-dict assignment `d[k] = v`: overwrite the existing binding in
place if the key is present, else append the new binding. -/
def dictInsert {β : Type} (k : String) (v : β) : List (String × β) → List (String × β)
  | [] => [(k, v)]
  | e :: rest => if e.1 = k then (k, v) :: rest else e :: dictInsert k v rest

/-- Python `d.pop(k, None)`: drop the binding for `k` if present, else no-op. -/
def dictPop {β : Type} (k : String) : List (String × β) → List (String × β)
  | [] => []
  | e :: rest => if e.1 = k then rest else e :: dictPop k rest

/-- Python `d.get(k)` / `k in d` lookup. -/
def dictLookup {β : Type} (k : String) : List (String × β) → Option β
  | [] => none
  | e :: rest => if e.1 = k then some e.2 else dictLookup k rest

/-- Python `k in d`. -/
def dictContains {β : Type} (k : String) (d : List (String × β)) : Bool :=
  (dictLookup k d).isSome

/-- Keys of an association list are pairwise distinct (true of every
state reachable from the empty dict, since Python dicts cannot hold a
key twice). -/
def nodupKeys {β : Type} (d : List (String × β)) : Prop :=
  (d.map Prod.fst).Nodup

instance {β : Type} (d : List (String × β)) : Decidable (nodupKeys d) := by
  unfold nodupKeys
  infer_instance

/-- What executing a page's `backend.py` does, as a deterministic
attribute of the file's content: raise during load/exec, load but
expose no `router` attribute, or load and expose a `router`. -/
inductive BackendOutcome where
  | raises
  | noRouter
  | withRouter
deriving DecidableEq

/-- A top-level entry of the pages root as `_load_page` and the watcher
see it: its directory name, whether it is a directory, whether
`index.html` is a file inside it, and its optional `backend.py`. -/
structure PageDir where
  name : String
  isDir : Bool
  hasIndex : Bool
  backend : Option BackendOutcome
deriving DecidableEq

/-- Mutable module-level state of main.py: `_registry`, the
`sys.modules` bindings created by `_load_page`, FastAPI's mount table
(grow-only), and the module-instance counter. -/
structure PageState where
  registry : List (String × Bool)
  sysModules : List (String × Nat)
  mounts : List (String × Nat)
  modCounter : Nat
deriving DecidableEq

/-- State at process start: empty registry, no loaded modules, no mounts. -/
def initState : PageState := ⟨[], [], [], 0⟩

/-- The `sys.modules` key used by `_load_page`:
`f"pages.\x7bname\x7d.backend"`. -/
def loadKey (name : String) : String := "pages." ++ name ++ ".backend"

/-- The API mount point used by `_load_page`: `f"/\x7bname\x7d/api"`. -/
def apiMount (name : String) : String := "/" ++ name ++ "/api"

/-- The `has_backend` value `_load_page` computes for a bundle: true
exactly when `backend.py` exists, executes without raising, and
exposes `router`. -/
def pageFlag (p : PageDir) : Bool :=
  match p.backend with
  | some BackendOutcome.withRouter => true
  | _ => false

/-- Translation of `_load_page`: skip silently when `index.html` is
missing; otherwise, if `backend.py` exists, create a fresh module
object, bind it in `sys.modules` under `loadKey name`, and execute it
inside `try`/`except` — a raise is caught and leaves
`has_backend = False`, a module without `router` only logs, a module
with `router` is mounted; finally commit the entry to the registry. -/
def loadPage (st : PageState) (p : PageDir) : PageState :=
  if p.hasIndex then
    match p.backend with
    | none =>
        { st with registry := dictInsert p.name false st.registry }
    | some outc =>
        let mid := st.modCounter
        let sys1 := dictInsert (loadKey p.name) mid st.sysModules
        match outc with
        | BackendOutcome.raises =>
            { st with sysModules := sys1, modCounter := mid + 1,
                      registry := dictInsert p.name false st.registry }
        | BackendOutcome.noRouter =>
            { st with sysModules := sys1, modCounter := mid + 1,
                      registry := dictInsert p.name false st.registry }
        | BackendOutcome.withRouter =>
            { st with sysModules := sys1, modCounter := mid + 1,
                      mounts := st.mounts ++ [(apiMount p.name, mid)],
                      registry := dictInsert p.name true st.registry }
  else st

/-- Translation of `_unload_page`: `_registry.pop(name, None)` and
`sys.modules.pop(loadKey name, None)`; the mount table is untouched
(FastAPI cannot remove routes). -/
def unloadPage (st : PageState) (name : String) : PageState :=
  { st with registry := dictPop name st.registry,
            sysModules := dictPop (loadKey name) st.sysModules }

/-- Components of `PAGES_DIR = Path("/pages")` relative to the
filesystem root, used by `Path.relative_to`. -/
def pagesRootParts : List String := ["pages"]

/-- Path.relative_to on component lists: strip the base's components,
returning `none` (the caught `ValueError`) when the path is not under
the base. -/
def relParts : List String → List String → Option (List String)
  | [], rest => some rest
  | _ :: _, [] => none
  | b :: bs, q :: qs => if b = q then relParts bs qs else none

/-- Translation of `_PagesEventHandler._page_name_from_path`: relative
path's `parts[0]` when the event path lies under the pages root and is
not the root itself, else `None`. -/
def pageNameOf (path : List String) : Option String :=
  match relParts pagesRootParts path with
  | none => none
  | some [] => none
  | some (h :: _) => some h

/-- The filesystem the watcher consults with `is_dir` / `is_file`: the
current top-level entries of the pages root, found by name. -/
def fsFind (dirs : List PageDir) (n : String) : Option PageDir :=
  dirs.find? (fun d => d.name == n)

/-- Translation of `_PagesEventHandler.on_created`: extract the first
path component (skipping on `None` or an empty name, Python's
`if not name`), then invoke the loader iff that top-level path is
currently a directory. No leading-dot filtering happens here. -/
def onCreated (dirs : List PageDir) (st : PageState) (path : List String) : PageState :=
  match pageNameOf path with
  | none => st
  | some name =>
    if name = "" then st
    else
      match fsFind dirs name with
      | some d => if d.isDir then loadPage st d else st
      | none => st

/-- Translation of `_PagesEventHandler.on_modified`: when the first
path component names a directory that still contains `index.html`,
invoke `_unload_page` then `_load_page`, in that order. -/
def onModified (dirs : List PageDir) (st : PageState) (path : List String) : PageState :=
  match pageNameOf path with
  | none => st
  | some name =>
    if name = "" then st
    else
      match fsFind dirs name with
      | some d => if d.isDir && d.hasIndex then loadPage (unloadPage st name) d else st
      | none => st

/-- Translation of `_PagesEventHandler.on_deleted`: when the named
top-level path no longer exists, invoke `_unload_page`. -/
def onDeleted (dirs : List PageDir) (st : PageState) (path : List String) : PageState :=
  match pageNameOf path with
  | none => st
  | some name =>
    if name = "" then st
    else
      match fsFind dirs name with
      | some _ => st
      | none => unloadPage st name

/-- Observable states of the pages root at startup: absent
(`is_dir()` is false), present but unlistable (`is_dir()` true and
`iterdir()` raises `PermissionError`), or listable with the given
top-level entries. -/
inductive PagesRoot where
  | missing
  | unreadable
  | ok (entries : List PageDir)

/-- Errors a startup step can raise out of the FastAPI startup hook. -/
inductive StartupError where
  | permissionDenied
  | watchPathError
deriving DecidableEq

/-- Python `entry.name.startswith(".")`: the name's first character is
a dot. -/
def startsWithDot (s : String) : Bool :=
  match s.data with
  | [] => false
  | c :: _ => c == ('.')

/-- Lexicographic less-or-equal on character lists by code point — the
order Python uses to compare strings. -/
def charListLE : List Char → List Char → Bool
  | [], _ => true
  | _ :: _, [] => false
  | a :: as, b :: bs => if a < b then true else if b < a then false else charListLE as bs

/-- Python string comparison `s <= t` (code-point lexicographic). -/
def strLE (s t : String) : Bool := charListLE s.data t.data

/-- Name order on directory entries, as `sorted(PAGES_DIR.iterdir())`
induces: paths share the `/pages/` prefix, so sorting the paths orders
entries by name. -/
def nameLE (a b : PageDir) : Prop := strLE a.name b.name = true

instance : DecidableRel nameLE := fun a b =>
  inferInstanceAs (Decidable (strLE a.name b.name = true))

/-- Loop body of `_scan_pages`: load an entry iff it is a directory
whose name does not start with a dot. -/
def scanStep (acc : PageState) (e : PageDir) : PageState :=
  if e.isDir && !(startsWithDot e.name) then loadPage acc e else acc

/-- The scan ordering `sorted(PAGES_DIR.iterdir())`. -/
def scanOrder (entries : List PageDir) : List PageDir :=
  List.insertionSort nameLE entries

/-- Body of `_scan_pages` once the root is listable. -/
def scanFold (entries : List PageDir) (st : PageState) : PageState :=
  (scanOrder entries).foldl scanStep st

/-- Translation of `_scan_pages`: a missing root only logs a warning
and returns; an unlistable root passes the `is_dir()` guard and then
`PAGES_DIR.iterdir()` raises, which nothing in the function catches. -/
def scanPages (root : PagesRoot) (st : PageState) : Except StartupError PageState :=
  match root with
  | PagesRoot.missing => Except.ok st
  | PagesRoot.unreadable => Except.error StartupError.permissionDenied
  | PagesRoot.ok entries => Except.ok (scanFold entries st)

/-- Modelled from the watchdog library used by `_start_watcher` (not
part of this repository): `Observer.start()` runs each emitter's
`on_thread_start` synchronously on the calling thread, and the inotify
emitter's watch construction raises `OSError` when the scheduled path
is not a directory (missing root) or cannot be watched (unreadable
root). `_start_watcher` wraps none of this in `try`/`except`. -/
def startWatcher (root : PagesRoot) : Except StartupError Unit :=
  match root with
  | PagesRoot.ok _ => Except.ok ()
  | PagesRoot.missing => Except.error StartupError.watchPathError
  | PagesRoot.unreadable => Except.error StartupError.watchPathError

/-- Translation of the `startup` event hook: `_scan_pages()` then
`_start_watcher()`; an exception from either propagates out of the
hook (FastAPI then aborts application startup, so the server exits
without ever serving requests). -/
def startup (root : PagesRoot) (st : PageState) : Except StartupError PageState :=
  match scanPages root st with
  | Except.error e => Except.error e
  | Except.ok st1 =>
      match startWatcher root with
      | Except.error e => Except.error e
      | Except.ok _ => Except.ok st1

/-- Body of an HTTP response, as constructed by the two handlers:
`JSONResponse` with a detail object, `JSONResponse` with the pages
listing, or `FileResponse` with a media type. -/
inductive RespBody where
  | jsonDetail (detail : String)
  | jsonPages (pages : List (String × Bool))
  | htmlFile (path : String) (mediaType : String)
deriving DecidableEq

/-- An HTTP response: status code and body. `JSONResponse` and
`FileResponse` default to status 200 unless `status_code` is given. -/
structure Response where
  status : Nat
  body : RespBody
deriving DecidableEq

/-- Order in which `sorted(_registry.items())` arranges entries:
lexicographically on the pair, name first. With the distinct keys a
Python dict guarantees, the second component is never consulted, so
any tie-break (Bool's `false <= true` here) is faithful. -/
def entryLe (a b : String × Bool) : Bool :=
  if a.1 = b.1 then !a.2 || b.2 else strLE a.1 b.1

/-- `entryLe` as a relation, for the sorting lemmas. -/
def entryLE (a b : String × Bool) : Prop := entryLe a b = true

instance : DecidableRel entryLE := fun a b =>
  inferInstanceAs (Decidable (entryLe a b = true))

/-- Translation of `list_pages` (`GET /__pages__`): a 200
`JSONResponse` whose `pages` field is the registry's entries sorted by
`sorted(_registry.items())`. -/
def listPages (reg : List (String × Bool)) : Response :=
  ⟨200, RespBody.jsonPages (List.insertionSort entryLE reg)⟩

/-- Translation of `serve_page` (`GET /\x7bpage_name\x7d`): a 404
`JSONResponse` when the name is not a registry key, else a
`FileResponse` for the page's `index.html` with media type text/html. -/
def servePage (reg : List (String × Bool)) (pageName : String) : Response :=
  if dictContains pageName reg then
    ⟨200, RespBody.htmlFile ("/pages/" ++ pageName ++ "/index.html") ("text/html")⟩
  else
    ⟨404, RespBody.jsonDetail ("Page not found")⟩

/-- FastAPI dispatch for a single-segment GET: routes match in
declaration order, and the fixed route `/__pages__` is declared before
the parameterized `/\x7bpage_name\x7d`, so a request for `/__pages__`
always reaches `list_pages` and never `serve_page`. -/
def dispatchGet (reg : List (String × Bool)) (seg : String) : Response :=
  if seg = "__pages__" then listPages reg else servePage reg seg

/-- Well-formedness of the module table: every recorded module
instance was allocated before the current counter value (true of every
reachable state, so the counter value is always a brand-new
identity). -/
def sysWF (st : PageState) : Bool :=
  st.sysModules.all (fun e => decide (e.2 < st.modCounter))

/-! Helper lemmas about the Python-dict operations. -/

theorem dictLookup_insert_self {β : Type} (k : String) (v : β) (d : List (String × β)) :
    dictLookup k (dictInsert k v d) = some v := by
  induction d with
  | nil => simp [dictInsert, dictLookup]
  | cons e rest ih =>
      by_cases h : e.1 = k
      · simp [dictInsert, dictLookup, h]
      · simp [dictInsert, dictLookup, h, ih]

theorem dictLookup_insert_ne {β : Type} {k k' : String} (hne : k ≠ k') (v : β)
    (d : List (String × β)) :
    dictLookup k' (dictInsert k v d) = dictLookup k' d := by
  induction d with
  | nil => simp [dictInsert, dictLookup, hne]
  | cons e rest ih =>
      by_cases h : e.1 = k
      · simp [dictInsert, dictLookup, h, hne]
      · simp [dictInsert, dictLookup, h, ih]

theorem dictInsert_insert_self {β : Type} (k : String) (v : β) (d : List (String × β)) :
    dictInsert k v (dictInsert k v d) = dictInsert k v d := by
  induction d with
  | nil => simp [dictInsert]
  | cons e rest ih =>
      by_cases h : e.1 = k
      · simp [dictInsert, h]
      · simp [dictInsert, h, ih]

theorem dictLookup_eq_none_of_not_mem {β : Type} {k : String} {d : List (String × β)}
    (h : k ∉ d.map Prod.fst) : dictLookup k d = none := by
  induction d with
  | nil => rfl
  | cons e rest ih =>
      simp only [List.map_cons, List.mem_cons] at h
      push_neg at h
      have hne : ¬ e.1 = k := fun hh => h.1 hh.symm
      simp [dictLookup, hne, ih h.2]

theorem dictLookup_pop_self {β : Type} (k : String) {d : List (String × β)}
    (h : nodupKeys d) : dictLookup k (dictPop k d) = none := by
  induction d with
  | nil => rfl
  | cons e rest ih =>
      unfold nodupKeys at h
      simp only [List.map_cons, List.nodup_cons] at h
      by_cases hk : e.1 = k
      · simpa [dictPop, hk] using dictLookup_eq_none_of_not_mem (hk ▸ h.1)
      · simp [dictPop, dictLookup, hk, ih h.2]

theorem dictLookup_pop_ne {β : Type} {k k' : String} (hne : k ≠ k')
    (d : List (String × β)) :
    dictLookup k' (dictPop k d) = dictLookup k' d := by
  induction d with
  | nil => rfl
  | cons e rest ih =>
      by_cases h : e.1 = k
      · simp [dictPop, dictLookup, h, hne]
      · simp [dictPop, dictLookup, h, ih]

theorem dictPop_of_lookup_none {β : Type} {k : String} {d : List (String × β)}
    (h : dictLookup k d = none) : dictPop k d = d := by
  induction d with
  | nil => rfl
  | cons e rest ih =>
      unfold dictLookup at h
      by_cases hk : e.1 = k
      · simp [hk] at h
      · simp [hk] at h
        simp [dictPop, hk, ih h]

theorem dictPop_pop_self {β : Type} (k : String) {d : List (String × β)}
    (h : nodupKeys d) : dictPop k (dictPop k d) = dictPop k d :=
  dictPop_of_lookup_none (dictLookup_pop_self k h)

theorem dictLookup_mem {β : Type} {k : String} {v : β} {d : List (String × β)}
    (h : dictLookup k d = some v) : (k, v) ∈ d := by
  induction d with
  | nil => simp [dictLookup] at h
  | cons e rest ih =>
      rcases e with ⟨ek, ev⟩
      unfold dictLookup at h
      by_cases hk : ek = k
      · simp [hk] at h
        simp [hk, h]
      · simp [hk] at h
        exact List.mem_cons_of_mem _ (ih h)

/-! Projections of the loader on each state component. -/

theorem loadPage_registry (st : PageState) (p : PageDir) :
    (loadPage st p).registry =
      if p.hasIndex then dictInsert p.name (pageFlag p) st.registry else st.registry := by
  rcases p with ⟨n, dd, hi, b⟩
  cases hi
  · simp [loadPage]
  · rcases b with _ | b
    · simp [loadPage, pageFlag]
    · cases b <;> simp [loadPage, pageFlag]

theorem loadPage_backend_state (st : PageState) (p : PageDir) (b : BackendOutcome)
    (hI : p.hasIndex = true) (hb : p.backend = some b) :
    (loadPage st p).sysModules = dictInsert (loadKey p.name) st.modCounter st.sysModules ∧
    (loadPage st p).modCounter = st.modCounter + 1 := by
  rcases p with ⟨n, dd, hi, bb⟩
  simp only at hI hb
  subst hI
  subst hb
  cases b <;> simp [loadPage]

/-! Order facts for the registry-listing sort. -/

theorem charListLE_cons_iff {a b : Char} {as bs : List Char} :
    charListLE (a :: as) (b :: bs) = true ↔ a < b ∨ (a = b ∧ charListLE as bs = true) := by
  by_cases h1 : a < b
  · simp [charListLE, h1]
  · by_cases h2 : b < a
    · have hne : a ≠ b := fun hh => lt_irrefl _ (hh ▸ h2)
      simp [charListLE, h1, h2, hne]
    · have hab : a = b := le_antisymm (not_lt.mp h2) (not_lt.mp h1)
      subst hab
      simp [charListLE, h1, lt_irrefl]

theorem charListLE_total (as bs : List Char) :
    charListLE as bs = true ∨ charListLE bs as = true := by
  induction as generalizing bs with
  | nil => left; rfl
  | cons a as ih =>
      cases bs with
      | nil => right; rfl
      | cons b bs =>
          rcases lt_trichotomy a b with h | h | h
          · left; rw [charListLE_cons_iff]; exact Or.inl h
          · subst h
            rcases ih bs with h' | h'
            · left; rw [charListLE_cons_iff]; exact Or.inr ⟨rfl, h'⟩
            · right; rw [charListLE_cons_iff]; exact Or.inr ⟨rfl, h'⟩
          · right; rw [charListLE_cons_iff]; exact Or.inl h

theorem charListLE_antisymm : ∀ {as bs : List Char},
    charListLE as bs = true → charListLE bs as = true → as = bs := by
  intro as
  induction as with
  | nil =>
      intro bs h1 h2
      cases bs with
      | nil => rfl
      | cons b bs => exact absurd h2 (by simp [charListLE])
  | cons a as ih =>
      intro bs h1 h2
      cases bs with
      | nil => exact absurd h1 (by simp [charListLE])
      | cons b bs =>
          rw [charListLE_cons_iff] at h1 h2
          rcases h1 with h1 | ⟨rfl, h1⟩
          · rcases h2 with h2 | ⟨h2, _⟩
            · exact absurd h2 (lt_asymm h1)
            · exact absurd h1 (h2 ▸ lt_irrefl _)
          · rcases h2 with h2 | ⟨_, h2⟩
            · exact absurd h2 (lt_irrefl _)
            · rw [ih h1 h2]

theorem charListLE_trans : ∀ {as bs cs : List Char},
    charListLE as bs = true → charListLE bs cs = true → charListLE as cs = true := by
  intro as
  induction as with
  | nil => intro bs cs _ _; rfl
  | cons a as ih =>
      intro bs cs h1 h2
      cases bs with
      | nil => exact absurd h1 (by simp [charListLE])
      | cons b bs =>
          cases cs with
          | nil => exact absurd h2 (by simp [charListLE])
          | cons c cs =>
              rw [charListLE_cons_iff] at h1 h2 ⊢
              rcases h1 with h1 | ⟨rfl, h1⟩
              · rcases h2 with h2 | ⟨rfl, _⟩
                · exact Or.inl (lt_trans h1 h2)
                · exact Or.inl h1
              · rcases h2 with h2 | ⟨rfl, h2⟩
                · exact Or.inl h2
                · exact Or.inr ⟨rfl, ih h1 h2⟩

theorem strLE_total (s t : String) : strLE s t = true ∨ strLE t s = true :=
  charListLE_total s.data t.data

theorem strLE_antisymm {s t : String} (h1 : strLE s t = true) (h2 : strLE t s = true) :
    s = t :=
  String.ext (charListLE_antisymm h1 h2)

theorem strLE_trans {s t u : String} (h1 : strLE s t = true) (h2 : strLE t u = true) :
    strLE s u = true :=
  charListLE_trans h1 h2

instance : IsTotal (String × Bool) entryLE where
  total a b := by
    unfold entryLE entryLe
    by_cases h : a.1 = b.1
    · rw [if_pos h, if_pos h.symm]
      cases a.2 <;> cases b.2 <;> simp
    · rw [if_neg h, if_neg (fun hh => h hh.symm)]
      exact strLE_total a.1 b.1

instance : IsTrans (String × Bool) entryLE where
  trans a b c hab hbc := by
    unfold entryLE entryLe at hab hbc ⊢
    by_cases h1 : a.1 = b.1 <;> by_cases h2 : b.1 = c.1
    · rw [if_pos h1] at hab
      rw [if_pos h2] at hbc
      rw [if_pos (h1.trans h2)]
      cases ha : a.2 <;> cases hb : b.2 <;> cases hc : c.2 <;> simp_all
    · rw [if_neg (fun hh => h2 (h1 ▸ hh : b.1 = c.1))]
      rw [if_neg h2] at hbc
      exact h1 ▸ hbc
    · rw [if_neg (fun hh => h1 (h2 ▸ hh : a.1 = b.1))]
      rw [if_neg h1] at hab
      exact h2 ▸ hab
    · rw [if_neg h1] at hab
      rw [if_neg h2] at hbc
      have h3 : a.1 ≠ c.1 := by
        intro hh
        exact h1 (strLE_antisymm hab (hh ▸ hbc))
      rw [if_neg h3]
      exact strLE_trans hab hbc

instance : IsAntisymm (String × Bool) entryLE where
  antisymm a b hab hba := by
    unfold entryLE entryLe at hab hba
    by_cases h : a.1 = b.1
    · rw [if_pos h] at hab
      rw [if_pos h.symm] at hba
      have h2 : a.2 = b.2 := by cases ha : a.2 <;> cases hb : b.2 <;> simp_all
      rcases a with ⟨a1, a2⟩
      rcases b with ⟨b1, b2⟩
      simp_all
    · rw [if_neg h] at hab
      rw [if_neg (fun hh => h hh.symm)] at hba
      exact absurd (strLE_antisymm hab hba) h

theorem charListLE_refl (l : List Char) : charListLE l l = true := by
  induction l with
  | nil => rfl
  | cons a l ih => simp [charListLE, lt_irrefl, ih]

theorem strLE_refl (s : String) : strLE s s = true :=
  charListLE_refl s.data

/-! Helper lemmas about the loader and the initial scan. -/

theorem loadPage_eq_of_no_index (st : PageState) (p : PageDir)
    (h : p.hasIndex = false) : loadPage st p = st := by
  rcases p with ⟨n, dd, hi, b⟩
  simp only at h
  subst h
  simp [loadPage]

theorem loadKey_injective {n m : String} (h : loadKey n = loadKey m) : n = m := by
  have hd := congrArg String.data h
  simp [loadKey, String.data_append] at hd
  exact String.ext hd

theorem scanStep_registry_dot {name : String} (hdot : startsWithDot name = true)
    (st : PageState) (e : PageDir) :
    dictLookup name (scanStep st e).registry = dictLookup name st.registry := by
  unfold scanStep
  by_cases he : e.name = name
  · simp [he, hdot]
  · by_cases hc : (e.isDir && !(startsWithDot e.name)) = true
    · rw [if_pos hc, loadPage_registry]
      split
      · exact dictLookup_insert_ne he _ _
      · rfl
    · rw [if_neg hc]

theorem scanFold_registry_dot {name : String} (hdot : startsWithDot name = true)
    (l : List PageDir) (st : PageState) :
    dictLookup name (l.foldl scanStep st).registry = dictLookup name st.registry := by
  induction l generalizing st with
  | nil => rfl
  | cons e l ih => rw [List.foldl_cons, ih, scanStep_registry_dot hdot]

/-! Concrete bundles used to evaluate the theorems on closed inputs. -/

/-- A document-only bundle: `index.html`, no `backend.py`. -/
def alphaDir : PageDir := ⟨"alpha", true, true, none⟩

/-- A full bundle: `index.html` plus a `backend.py` exposing `router`. -/
def betaDir : PageDir := ⟨"beta", true, true, some BackendOutcome.withRouter⟩

/-- A broken bundle: `index.html` plus a `backend.py` that raises. -/
def rogueDir : PageDir := ⟨"rogue", true, true, some BackendOutcome.raises⟩

/-- A dot-named bundle, excluded from the initial scan. -/
def hiddenDir : PageDir := ⟨".hidden", true, true, none⟩

/-- A directory with a `backend.py` but no `index.html`. -/
def noIndexDir : PageDir := ⟨"noindex", true, false, some BackendOutcome.withRouter⟩

/-! Claim theorems. -/

/-- C1: for a page directory containing the required `index.html` whose
`backend.py` raises during load or execution, `_load_page` catches the
error inside its `try`/`except` and still commits a registry entry for
the page with `has_backend = false`; being a total function on states,
it propagates no error to its caller. -/
theorem loader_catches_backend_error (st : PageState) (p : PageDir)
    (hIdx : p.hasIndex = true) (hb : p.backend = some BackendOutcome.raises) :
    (loadPage st p).registry = dictInsert p.name false st.registry ∧
    dictLookup p.name (loadPage st p).registry = some false := by
  have hf : pageFlag p = false := by simp [pageFlag, hb]
  have hr : (loadPage st p).registry = dictInsert p.name false st.registry := by
    rw [loadPage_registry, hIdx, hf]
    simp
  exact ⟨hr, by rw [hr]; exact dictLookup_insert_self _ _ _⟩

/-- C1 witness: the broken bundle `rogue` at the initial state. -/
theorem loader_catches_backend_error_check :
    (loadPage initState rogueDir).registry = dictInsert ("rogue") false initState.registry ∧
    dictLookup ("rogue") (loadPage initState rogueDir).registry = some false :=
  loader_catches_backend_error initState rogueDir rfl rfl

/-- C2 counterexample: the fixed route `/__pages__` is declared before
the parameterized `/\x7bpage_name\x7d`, so for the page name
`__pages__` — which is not a registry key here — `GET /__pages__`
returns the 200 pages listing, not the 404 `Page not found` body the
claim requires for every non-key page name. -/
theorem pages_listing_shadows_serve_page :
    dictContains ("__pages__") ([] : List (String × Bool)) = false ∧
    dispatchGet [] ("__pages__") = ⟨200, RespBody.jsonPages []⟩ ∧
    dispatchGet [] ("__pages__") ≠ ⟨404, RespBody.jsonDetail ("Page not found")⟩ := by
  refine ⟨rfl, rfl, ?_⟩
  decide

/-- C2 (amended): for every page name other than the reserved literal
`__pages__` (whose path the fixed `/__pages__` route shadows), the GET
dispatch responds 404 with `Page not found` exactly when the name is
not a registry key, and responds 200 with the page's `index.html` as a
text/html `FileResponse` when it is a key. -/
theorem serve_page_responses (reg : List (String × Bool)) (p : String)
    (hp : p ≠ "__pages__") :
    (dictContains p reg = false ↔
        dispatchGet reg p = ⟨404, RespBody.jsonDetail ("Page not found")⟩) ∧
    (dictContains p reg = true →
        dispatchGet reg p =
          ⟨200, RespBody.htmlFile ("/pages/" ++ p ++ "/index.html") ("text/html")⟩) := by
  unfold dispatchGet
  rw [if_neg hp]
  unfold servePage
  constructor
  · constructor
    · intro h
      simp [h]
    · intro h
      cases hc : dictContains p reg
      · rfl
      · rw [hc] at h
        simp at h
  · intro h
    simp [h]

/-- C2 witness: a one-page registry probed at an unknown name. -/
theorem serve_page_responses_check :
    (dictContains ("zzz") [("alpha", false)] = false ↔
        dispatchGet [("alpha", false)] ("zzz") =
          ⟨404, RespBody.jsonDetail ("Page not found")⟩) ∧
    (dictContains ("zzz") [("alpha", false)] = true →
        dispatchGet [("alpha", false)] ("zzz") =
          ⟨200, RespBody.htmlFile ("/pages/" ++ "zzz" ++ "/index.html") ("text/html")⟩) :=
  serve_page_responses [("alpha", false)] ("zzz") (by decide)

/-- C3 (code bug): with the pages root missing, `_scan_pages` itself
degrades gracefully (warning, empty registry, and `GET /__pages__`
would serve an empty list), but the `startup` hook as a whole raises:
for a missing root the watchdog observer construction in
`_start_watcher` raises `OSError`, and for an existing-but-unreadable
root `PAGES_DIR.iterdir()` in `_scan_pages` raises `PermissionError` —
neither is caught, so application startup fails instead of completing. -/
theorem startup_crashes_without_pages_root :
    startup PagesRoot.missing initState = Except.error StartupError.watchPathError ∧
    startup PagesRoot.unreadable initState = Except.error StartupError.permissionDenied ∧
    scanPages PagesRoot.missing initState = Except.ok initState ∧
    listPages initState.registry = ⟨200, RespBody.jsonPages []⟩ :=
  ⟨rfl, rfl, rfl, rfl⟩

/-- C4: `GET /__pages__` is a 200 whose `pages` field holds exactly the
registry's entries, sorted lexicographically by name (the name list of
the output is sorted under code-point string order), and the response
is invariant under any reordering of the registry's entries. -/
theorem pages_listing_sorted (reg reg' : List (String × Bool)) (h : reg.Perm reg') :
    (listPages reg).status = 200 ∧
    (∃ s, (listPages reg).body = RespBody.jsonPages s ∧ s.Perm reg ∧
        List.Sorted entryLE s ∧
        List.Sorted (fun a b => strLE a b = true) (s.map Prod.fst)) ∧
    listPages reg = listPages reg' := by
  have hmap : ∀ a b : String × Bool, entryLE a b → strLE a.1 b.1 = true := by
    intro a b hab
    unfold entryLE entryLe at hab
    by_cases hh : a.1 = b.1
    · rw [hh]
      exact strLE_refl _
    · rw [if_neg hh] at hab
      exact hab
  refine ⟨rfl,
    ⟨List.insertionSort entryLE reg, rfl, List.perm_insertionSort entryLE reg,
      List.sorted_insertionSort entryLE reg,
      List.Pairwise.map Prod.fst hmap (List.sorted_insertionSort entryLE reg)⟩, ?_⟩
  have heq : List.insertionSort entryLE reg = List.insertionSort entryLE reg' :=
    List.eq_of_perm_of_sorted
      (((List.perm_insertionSort entryLE reg).trans h).trans
        (List.perm_insertionSort entryLE reg').symm)
      (List.sorted_insertionSort entryLE reg)
      (List.sorted_insertionSort entryLE reg')
  unfold listPages
  rw [heq]

/-- C4 witness: a two-page registry in reverse order and a permutation
of it. -/
theorem pages_listing_sorted_check :
    (listPages [("b", true), ("a", false)]).status = 200 ∧
    (∃ s, (listPages [("b", true), ("a", false)]).body = RespBody.jsonPages s ∧
        s.Perm [("b", true), ("a", false)] ∧
        List.Sorted entryLE s ∧
        List.Sorted (fun a b => strLE a b = true) (s.map Prod.fst)) ∧
    listPages [("b", true), ("a", false)] = listPages [("a", false), ("b", true)] :=
  pages_listing_sorted [("b", true), ("a", false)] [("a", false), ("b", true)] (by decide)

/-- C5: invoking the loader twice in succession on the same unchanged
bundle leaves the registry exactly as one invocation does — the second
commit overwrites the entry with an equal entry. -/
theorem loader_idempotent_on_registry (st : PageState) (p : PageDir) :
    (loadPage (loadPage st p) p).registry = (loadPage st p).registry := by
  cases hx : p.hasIndex with
  | false => rw [loadPage_eq_of_no_index st p hx, loadPage_eq_of_no_index st p hx]
  | true =>
      have h1 := loadPage_registry st p
      have h2 := loadPage_registry (loadPage st p) p
      rw [hx] at h1 h2
      simp at h1 h2
      rw [h2, h1, dictInsert_insert_self]

/-- C6 counterexample: reloading the `beta` page (unload then load, as
`on_modified` does) stores the second-generation module under the very
same `sys.modules` key `pages.beta.backend` that held the first
generation — the key is reused across reload generations, only the
module instance (0, then 1) is new. -/
theorem module_key_reused_across_generations :
    dictLookup ("pages.beta.backend") (loadPage initState betaDir).sysModules = some 0 ∧
    dictLookup ("pages.beta.backend")
        (loadPage (unloadPage (loadPage initState betaDir) ("beta")) betaDir).sysModules
      = some 1 :=
  ⟨rfl, rfl⟩

/-- C6 (amended): the handler module is loaded into `sys.modules` under
the key `pages.\x7bname\x7d.backend`, which never collides across
different page names; every load binds a brand-new module instance
(one never present in the table before); but a reload of the same page
stores the new instance under the same per-page key, replacing the old
binding, rather than under a fresh key. -/
theorem module_isolation (st : PageState) (p : PageDir) (b : BackendOutcome)
    (hIdx : p.hasIndex = true) (hb : p.backend = some b) (hwf : sysWF st = true) :
    (∀ n m : String, loadKey n = loadKey m → n = m) ∧
    dictLookup (loadKey p.name) (loadPage st p).sysModules = some st.modCounter ∧
    (∀ k i, dictLookup k st.sysModules = some i → i ≠ st.modCounter) ∧
    dictLookup (loadKey p.name)
        (loadPage (unloadPage (loadPage st p) p.name) p).sysModules
      = some ((loadPage st p).modCounter) ∧
    (loadPage st p).modCounter = st.modCounter + 1 := by
  obtain ⟨hsys, hcnt⟩ := loadPage_backend_state st p b hIdx hb
  refine ⟨fun n m h => loadKey_injective h, ?_, ?_, ?_, hcnt⟩
  · rw [hsys]
    exact dictLookup_insert_self _ _ _
  · intro k i hki
    have hmem := dictLookup_mem hki
    have hlt := (List.all_eq_true.mp hwf) _ hmem
    simp only [decide_eq_true_eq] at hlt
    exact Nat.ne_of_lt hlt
  · obtain ⟨hsys2, _⟩ :=
      loadPage_backend_state (unloadPage (loadPage st p) p.name) p b hIdx hb
    rw [hsys2, dictLookup_insert_self]
    rfl

/-- C6 witness: the full bundle `beta` at the initial state. -/
theorem module_isolation_check :
    (∀ n m : String, loadKey n = loadKey m → n = m) ∧
    dictLookup (loadKey (betaDir.name)) (loadPage initState betaDir).sysModules
      = some (initState.modCounter) ∧
    (∀ k i, dictLookup k initState.sysModules = some i → i ≠ initState.modCounter) ∧
    dictLookup (loadKey (betaDir.name))
        (loadPage (unloadPage (loadPage initState betaDir) (betaDir.name)) betaDir).sysModules
      = some ((loadPage initState betaDir).modCounter) ∧
    (loadPage initState betaDir).modCounter = initState.modCounter + 1 :=
  module_isolation initState betaDir BackendOutcome.withRouter rfl rfl rfl

/-- C7: a modified event whose first path component under the pages
root names a directory still containing `index.html` makes the watcher
unload then load that name, in that order — the handler equals the
loader applied to the unloader's result, and after the unload step the
name is absent from the registry. -/
theorem watcher_reload_order (dirs : List PageDir) (st : PageState)
    (path : List String) (name : String) (d : PageDir)
    (hn : pageNameOf path = some name) (hne : name ≠ "")
    (hf : fsFind dirs name = some d) (hd : d.isDir = true) (hidx : d.hasIndex = true)
    (hnd : nodupKeys st.registry) :
    onModified dirs st path = loadPage (unloadPage st name) d ∧
    dictLookup name (unloadPage st name).registry = none := by
  constructor
  · unfold onModified
    rw [hn]
    simp [hne, hf, hd, hidx]
  · exact dictLookup_pop_self name hnd

/-- C7 witness: an edit event on `beta`'s `index.html` with `beta`
registered. -/
theorem watcher_reload_order_check :
    onModified [betaDir] (loadPage initState betaDir) ["pages", "beta", "index.html"]
      = loadPage (unloadPage (loadPage initState betaDir) ("beta")) betaDir ∧
    dictLookup ("beta") (unloadPage (loadPage initState betaDir) ("beta")).registry = none :=
  watcher_reload_order [betaDir] (loadPage initState betaDir)
    ["pages", "beta", "index.html"] ("beta") betaDir rfl (by decide) rfl rfl rfl (by decide)

/-- C8: invoking the loader on a directory whose `index.html` is absent
raises nothing and leaves the whole state — in particular every
registry entry — exactly as it was. -/
theorem loader_skips_without_index (st : PageState) (p : PageDir)
    (h : p.hasIndex = false) :
    loadPage st p = st ∧
    (∀ n, dictLookup n (loadPage st p).registry = dictLookup n st.registry) := by
  have he := loadPage_eq_of_no_index st p h
  exact ⟨he, fun n => by rw [he]⟩

/-- C8 witness: a bundle with a `backend.py` but no `index.html`,
invoked on a state that already holds an entry under the same name. -/
theorem loader_skips_without_index_check :
    loadPage ⟨[("noindex", true)], [], [], 0⟩ noIndexDir = ⟨[("noindex", true)], [], [], 0⟩ ∧
    (∀ n, dictLookup n (loadPage ⟨[("noindex", true)], [], [], 0⟩ noIndexDir).registry
        = dictLookup n (⟨[("noindex", true)], [], [], 0⟩ : PageState).registry) :=
  loader_skips_without_index ⟨[("noindex", true)], [], [], 0⟩ noIndexDir rfl

/-- C9: the unloader removes exactly the named entry when it is
present, is a registry no-op on an absent name, raises nothing, and
invoking it twice equals invoking it once (on the whole state). -/
theorem unloader_idempotent (st : PageState) (name : String)
    (hr : nodupKeys st.registry) (hm : nodupKeys st.sysModules) :
    dictLookup name (unloadPage st name).registry = none ∧
    (∀ m, m ≠ name → dictLookup m (unloadPage st name).registry = dictLookup m st.registry) ∧
    (dictContains name st.registry = false → (unloadPage st name).registry = st.registry) ∧
    unloadPage (unloadPage st name) name = unloadPage st name := by
  refine ⟨dictLookup_pop_self name hr,
    fun m hm' => dictLookup_pop_ne (Ne.symm hm') st.registry, ?_, ?_⟩
  · intro h
    have hnone : dictLookup name st.registry = none := by
      cases hx : dictLookup name st.registry
      · rfl
      · rw [dictContains, hx] at h
        simp at h
    exact dictPop_of_lookup_none hnone
  · have h1 := dictPop_pop_self name hr
    have h2 := dictPop_pop_self (loadKey name) hm
    rcases st with ⟨r, sM, mo, c⟩
    simp only [unloadPage] at h1 h2 ⊢
    simp_all

/-- C9 witness: the state holding `beta` alone, unloaded at `beta`. -/
theorem unloader_idempotent_check :
    dictLookup ("beta") (unloadPage (loadPage initState betaDir) ("beta")).registry = none ∧
    (∀ m, m ≠ "beta" →
        dictLookup m (unloadPage (loadPage initState betaDir) ("beta")).registry
          = dictLookup m (loadPage initState betaDir).registry) ∧
    (dictContains ("beta") (loadPage initState betaDir).registry = false →
        (unloadPage (loadPage initState betaDir) ("beta")).registry
          = (loadPage initState betaDir).registry) ∧
    unloadPage (unloadPage (loadPage initState betaDir) ("beta")) ("beta")
      = unloadPage (loadPage initState betaDir) ("beta") :=
  unloader_idempotent (loadPage initState betaDir) ("beta") (by decide) (by decide)

/-- C10: the leading-dot exclusion lives only in `_scan_pages` — the
initial scan never brings a dot-named entry into the registry — while
`on_created` applies no dot filtering: a created event for a dot-named
top-level directory still invokes the loader, so such a page enters
the registry at runtime. -/
theorem dot_dirs_only_excluded_from_scan (dirs : List PageDir) (st : PageState)
    (path : List String) (name : String) (d : PageDir)
    (hn : pageNameOf path = some name) (hne : name ≠ "")
    (hdot : startsWithDot name = true)
    (hf : fsFind dirs name = some d) (hd : d.isDir = true) (hidx : d.hasIndex = true) :
    (∀ (entries : List PageDir) (st0 : PageState),
        dictLookup name (scanFold entries st0).registry = dictLookup name st0.registry) ∧
    onCreated dirs st path = loadPage st d ∧
    dictLookup name (onCreated dirs st path).registry = some (pageFlag d) := by
  have hname : d.name = name := by
    have hfind := List.find?_some hf
    simpa using hfind
  have hoc : onCreated dirs st path = loadPage st d := by
    unfold onCreated
    rw [hn]
    simp [hne, hf, hd]
  refine ⟨fun entries st0 => scanFold_registry_dot hdot (scanOrder entries) st0, hoc, ?_⟩
  rw [hoc, loadPage_registry, hidx]
  simp only [if_true]
  rw [hname]
  exact dictLookup_insert_self _ _ _

/-- C10 witness: the dot-named bundle appearing at runtime under an
otherwise empty root. -/
theorem dot_dirs_only_excluded_from_scan_check :
    (∀ (entries : List PageDir) (st0 : PageState),
        dictLookup (".hidden") (scanFold entries st0).registry
          = dictLookup (".hidden") st0.registry) ∧
    onCreated [hiddenDir] initState ["pages", ".hidden"] = loadPage initState hiddenDir ∧
    dictLookup (".hidden") (onCreated [hiddenDir] initState ["pages", ".hidden"]).registry
      = some (pageFlag hiddenDir) :=
  dot_dirs_only_excluded_from_scan [hiddenDir] initState ["pages", ".hidden"]
    (".hidden") hiddenDir rfl (by decide) rfl rfl rfl rfl
